import Mathlib

/-!
Verification of `src/dmitigr/base/math.hpp` (namespace `dmitigr::math`):
power-of-two alignment arithmetic, the `Interval` class, and the
mean/variance statistics functions.

The alignment functions are C++ templates over fixed-width two's-complement
integer types.  We embed a value of such a type of width `w` as its bit
pattern: a natural number `< 2^w`.  Two's-complement arithmetic is natural
arithmetic modulo `2^w`; bitwise AND of patterns is `Nat.land`; the sign
test `value >= 0` of the signed interpretation is `pattern < 2^(w-1)`.
Functions that `throw std::invalid_argument` are embedded as
`Except String`-valued functions carrying the exact message.
-/

namespace dmitigr.math

/-- Signed comparison `value >= 0` on a `w`-bit two's-complement pattern:
the sign bit is clear, i.e. the pattern is below `2^(w-1)`. -/
def sgeZero (w n : Nat) : Bool := n < 2 ^ (w - 1)

/-- Two's-complement subtraction of patterns below `2^w`:
`a - b` computed modulo `2^w`. -/
def wsub (w a b : Nat) : Nat := (a + (2 ^ w - b)) % 2 ^ w

/-- Embedding of `is_power_of_two` from `math.hpp`:
`(number & (number - 1)) == 0`, on `w`-bit patterns, where `number - 1`
wraps modulo `2^w`. -/
def is_power_of_two (w number : Nat) : Bool :=
  Nat.land number (wsub w number 1) == 0

/-- Embedding of `padding(value, alignment)` from `math.hpp`:
throws for a (signed-)negative value, then for an alignment failing
`is_power_of_two`, otherwise returns `(0 - value) & (alignment - 1)`
in `w`-bit two's-complement arithmetic. -/
def padding (w value alignment : Nat) : Except String Nat :=
  if ¬(sgeZero w value) then
    .error "cannot calculate padding for a negative value"
  else if ¬(is_power_of_two w alignment) then
    .error "cannot calculate padding with alignment that is not power of 2"
  else
    .ok (Nat.land (wsub w 0 value) (wsub w alignment 1))

/-- Embedding of `aligned(value, alignment)` from `math.hpp`:
throws for a (signed-)negative value, then for an alignment failing
`is_power_of_two`, otherwise returns `(value + (alignment - 1)) & -alignment`
in `w`-bit two's-complement arithmetic. -/
def aligned (w value alignment : Nat) : Except String Nat :=
  if ¬(sgeZero w value) then
    .error "cannot align a negative value"
  else if ¬(is_power_of_two w alignment) then
    .error "cannot align a value with alignment that is not power of 2"
  else
    .ok (Nat.land ((value + wsub w alignment 1) % 2 ^ w) (wsub w 0 alignment))

end dmitigr.math

namespace dmitigr.math

/-- Embedding of `enum class Interval_type` from `math.hpp`. -/
inductive Interval_type
  /-- Denotes [min, max] interval. -/
  | closed
  /-- Denotes (min, max) interval. -/
  | «open»
  /-- Denotes (min, max] interval. -/
  | lopen
  /-- Denotes [min, max) interval. -/
  | ropen
deriving DecidableEq, Repr

/-- Embedding of the state of `class Interval<T>` from `math.hpp`:
the three data members `type_`, `min_`, `max_`. -/
structure Interval (T : Type) where
  type_ : Interval_type
  min_ : T
  max_ : T
deriving DecidableEq, Repr

namespace Interval

variable {T : Type}

/-- The default-constructed `Interval`: member initializers give
`type_{Type::closed}`, `min_{}`, `max_{}` (value-initialized endpoints). -/
def dfault [Inhabited T] : Interval T :=
  { type_ := Interval_type.closed, min_ := default, max_ := default }

/-- Embedding of the two-argument constructor `Interval(T min, T max)`:
builds a closed interval, throwing `std::invalid_argument` unless
`min_ <= max_`. -/
def mk2 [LinearOrder T] (min max : T) : Except String (Interval T) :=
  if ¬(min ≤ max) then .error "interval is invalid (min > max)"
  else .ok { type_ := Interval_type.closed, min_ := min, max_ := max }

/-- Embedding of the typed constructor `Interval(Type type, T min, T max)`:
throws `std::invalid_argument` unless
`(type == closed && min <= max) || (type != closed && min < max)`. -/
def mkTyped [LinearOrder T] (type : Interval_type) (min max : T) :
    Except String (Interval T) :=
  let requirement := (type = Interval_type.closed ∧ min ≤ max) ∨
    (type ≠ Interval_type.closed ∧ min < max)
  if ¬requirement then .error "interval is invalid (min > max or min >= max)"
  else .ok { type_ := type, min_ := min, max_ := max }

/-- Embedding of `Interval::make_closed`. -/
def make_closed [LinearOrder T] (min max : T) : Except String (Interval T) :=
  mkTyped Interval_type.closed min max

/-- Embedding of `Interval::make_open`. -/
def make_open [LinearOrder T] (min max : T) : Except String (Interval T) :=
  mkTyped Interval_type.«open» min max

/-- Embedding of `Interval::make_lopen`. -/
def make_lopen [LinearOrder T] (min max : T) : Except String (Interval T) :=
  mkTyped Interval_type.lopen min max

/-- Embedding of `Interval::make_ropen`. -/
def make_ropen [LinearOrder T] (min max : T) : Except String (Interval T) :=
  mkTyped Interval_type.ropen min max

/-- Embedding of the accessor `Interval::type()`. -/
def type (i : Interval T) : Interval_type := i.type_

/-- Embedding of the accessor `Interval::min()`. -/
def min (i : Interval T) : T := i.min_

/-- Embedding of the accessor `Interval::max()`. -/
def max (i : Interval T) : T := i.max_

/-- Embedding of `Interval::has(value)`: the four comparison patterns
switched on `type_`. -/
def has [LinearOrder T] (i : Interval T) (value : T) : Bool :=
  match i.type_ with
  | Interval_type.closed => (i.min_ ≤ value) && (value ≤ i.max_)
  | Interval_type.«open» => (i.min_ < value) && (value < i.max_)
  | Interval_type.lopen => (i.min_ < value) && (value ≤ i.max_)
  | Interval_type.ropen => (i.min_ ≤ value) && (value < i.max_)

/-- Embedding of `Interval::release()`: returns the pair `{min_, max_}`
and resets the receiver with `*this = {};`.  Modelled as a consuming
transform returning the pair together with the post-state. -/
def release [Inhabited T] (i : Interval T) : (T × T) × Interval T :=
  ((i.min_, i.max_), dfault)

end Interval

end dmitigr.math

namespace dmitigr.math

/-!
The statistics functions operate on `double`.  We embed `double`
arithmetic as exact rational arithmetic (`ℚ`): on the success paths the
claims speak about, the algorithms are plain field arithmetic, and the
rational model computes the exact value the C++ code approximates.
A container of doubles is a `List ℚ`; `data.size()` is `List.length`
(`size_t`, so the expression `data.size() - !general` wraps modulo
`2^64`). -/

/-- `size_t` subtraction `data.size() - !general`: 64-bit unsigned
wraparound. -/
def sizeSub (n b : Nat) : Nat := (n + (2 ^ 64 - b)) % 2 ^ 64

/-- Embedding of `avg(data)` from `math.hpp`: starting from `double
result{}`, accumulate `num / data_size` for each element. -/
def avg (data : List ℚ) : ℚ :=
  data.foldl (fun result num => result + num / (data.length : ℚ)) 0

/-- Embedding of `variance(data, avg, general)` from `math.hpp`:
`den = data.size() - !general` (in `size_t`), then accumulate
`(d / den) * d` with `d = num - avg`. -/
def variance (data : List ℚ) (avg : ℚ) (general : Bool) : ℚ :=
  let den : ℚ := (sizeSub data.length (if general then 0 else 1) : Nat)
  data.foldl (fun result num => result + ((num - avg) / den) * (num - avg)) 0

/-- Embedding of the `variance(data, general)` overload: delegates to
`variance(data, avg(data), general)`. -/
def variance2 (data : List ℚ) (general : Bool) : ℚ :=
  variance data (avg data) general

end dmitigr.math

namespace dmitigr.math

/-! ### Helper lemmas about the bit-level alignment arithmetic -/

theorem land_eq_and (x y : Nat) : Nat.land x y = x &&& y := rfl

/-- Two's-complement decrement of a nonzero pattern does not wrap. -/
theorem wsub_one {w n : Nat} (h1 : 1 ≤ n) (h2 : n < 2 ^ w) : wsub w n 1 = n - 1 := by
  unfold wsub
  have hp : 1 ≤ 2 ^ w := Nat.one_le_two_pow
  have he : n + (2 ^ w - 1) = 2 ^ w * 1 + (n - 1) := by omega
  rw [he, Nat.mul_add_mod]
  exact Nat.mod_eq_of_lt (by omega)

/-- Two's-complement negation of a pattern in `[1, 2^w]`. -/
theorem wsub_zero_left {w b : Nat} (hb : 1 ≤ b) (hb2 : b ≤ 2 ^ w) :
    wsub w 0 b = 2 ^ w - b := by
  unfold wsub
  rw [Nat.zero_add]
  exact Nat.mod_eq_of_lt (by omega)

/-- Masking with `2^w - 2^k` (the `w`-bit pattern of `-2^k`) clears the low
`k` bits: for `x < 2^w` it computes `x - x % 2^k`. -/
theorem and_two_pow_sub_two_pow {w k x : Nat} (hk : k ≤ w) (hx : x < 2 ^ w) :
    x &&& (2 ^ w - 2 ^ k) = x - x % 2 ^ k := by
  have hmask : 2 ^ w - 2 ^ k = (2 ^ (w - k) - 1) <<< k := by
    rw [Nat.shiftLeft_eq, Nat.sub_one_mul, ← pow_add, Nat.sub_add_cancel hk]
  have hdm := Nat.div_add_mod x (2 ^ k)
  have hcomm : x / 2 ^ k * 2 ^ k = 2 ^ k * (x / 2 ^ k) := Nat.mul_comm _ _
  have hres : x - x % 2 ^ k = (x >>> k) <<< k := by
    rw [Nat.shiftLeft_eq, Nat.shiftRight_eq_div_pow]
    omega
  rw [hmask, hres]
  apply Nat.eq_of_testBit_eq
  intro i
  rw [Nat.testBit_and, Nat.testBit_shiftLeft, Nat.testBit_shiftLeft,
    Nat.testBit_shiftRight, Nat.testBit_two_pow_sub_one]
  by_cases hik : k ≤ i
  · by_cases hiw : i < w
    · have h1 : i - k < w - k := by omega
      have h2 : k + (i - k) = i := by omega
      simp [hik, h1, h2, ge_iff_le]
    · have h1 : ¬(i - k < w - k) := by omega
      have h2 : k + (i - k) = i := by omega
      have h3 : Nat.testBit x i = false :=
        Nat.testBit_lt_two_pow
          (lt_of_lt_of_le hx (Nat.pow_le_pow_right (by omega) (by omega)))
      simp [hik, h1, h2, h3, ge_iff_le]
  · simp [hik, ge_iff_le]

theorem land_two_pow_pred (k : Nat) : Nat.land (2 ^ k) (2 ^ k - 1) = 0 := by
  rw [land_eq_and, Nat.and_pow_two_sub_one_eq_mod]
  exact Nat.mod_self _

/-- A positive number that is not a power of two shares its top bit with
its predecessor, so `n & (n - 1)` is nonzero. -/
theorem land_pred_ne_zero {n : Nat} (h1 : 0 < n) (h2 : ∀ k, n ≠ 2 ^ k) :
    Nat.land n (n - 1) ≠ 0 := by
  have hne : n ≠ 2 ^ Nat.log 2 n := h2 _
  have hlow : 2 ^ Nat.log 2 n ≤ n := Nat.pow_log_le_self 2 (by omega)
  have hhigh : n < 2 ^ (Nat.log 2 n + 1) := Nat.lt_pow_succ_log_self (by omega) n
  set k := Nat.log 2 n with hkdef
  have hbit : ∀ m : Nat, 2 ^ k ≤ m → m < 2 ^ (k + 1) → Nat.testBit m k = true := by
    intro m hm1 hm2
    rw [Nat.testBit_to_div_mod]
    have hd1 : 1 ≤ m / 2 ^ k := by
      rw [Nat.le_div_iff_mul_le (Nat.two_pow_pos k)]
      omega
    have hd2 : m / 2 ^ k < 2 := by
      apply Nat.div_lt_of_lt_mul
      rw [pow_succ] at hm2
      omega
    have hd : m / 2 ^ k = 1 := by omega
    simp [hd]
  intro hz
  have h3 : Nat.testBit (Nat.land n (n - 1)) k = true := by
    rw [land_eq_and, Nat.testBit_and, hbit n hlow hhigh,
      hbit (n - 1) (by omega) (by omega)]
    rfl
  rw [hz] at h3
  simp at h3

/-- On patterns below `2^w`, the bit trick `(n & (n - 1)) == 0` recognises
exactly `0` and the powers of two. -/
theorem is_power_of_two_iff {w n : Nat} (h0 : 0 < n) (hn : n < 2 ^ w) :
    is_power_of_two w n = true ↔ ∃ k, n = 2 ^ k := by
  unfold is_power_of_two
  rw [wsub_one h0 hn, beq_iff_eq]
  constructor
  · intro h
    by_contra hc
    push_neg at hc
    exact land_pred_ne_zero h0 hc h
  · rintro ⟨k, rfl⟩
    exact land_two_pow_pred k

theorem is_power_of_two_zero (w : Nat) : is_power_of_two w 0 = true := by
  unfold is_power_of_two
  rw [land_eq_and, Nat.zero_and]
  rfl

end dmitigr.math

namespace dmitigr.math

/-! ### Claims about the alignment functions -/

/-- Claim C2 (amended): `padding(value, alignment)` and
`aligned(value, alignment)` fail with an invalid-argument condition exactly
when `value < 0` (signed) or `alignment` fails the code's
`is_power_of_two` test (which also accepts `0` and the two's-complement
minimum besides the genuine powers of two), and the two violations carry
distinct error messages. -/
theorem claim_C2 (w value alignment : Nat) :
    ((padding w value alignment).isOk
      = (sgeZero w value && is_power_of_two w alignment)) ∧
    ((aligned w value alignment).isOk
      = (sgeZero w value && is_power_of_two w alignment)) ∧
    (sgeZero w value = false →
      padding w value alignment
        = .error "cannot calculate padding for a negative value" ∧
      aligned w value alignment
        = .error "cannot align a negative value") ∧
    (sgeZero w value = true → is_power_of_two w alignment = false →
      padding w value alignment
        = .error "cannot calculate padding with alignment that is not power of 2" ∧
      aligned w value alignment
        = .error "cannot align a value with alignment that is not power of 2") := by
  unfold padding aligned
  by_cases h1 : sgeZero w value <;> by_cases h2 : is_power_of_two w alignment <;>
    simp [h1, h2, Except.isOk, Except.toBool]

theorem claim_C2_witness :
    padding 8 200 4 = .error "cannot calculate padding for a negative value" ∧
    aligned 8 200 4 = .error "cannot align a negative value" :=
  (claim_C2 8 200 4).2.2.1 rfl

/-- Claim C2, counterexample to the claim as stated: with `value = 1 >= 0`
and `alignment = 0`, which is not a power of two, both calls nevertheless
succeed (the bit-trick test accepts `0`), so "fails iff value < 0 or
alignment is not a power of two" is false. -/
theorem claim_C2_counterexample :
    (padding 64 1 0).isOk = true ∧ (aligned 64 1 0).isOk = true ∧
    ∀ k : Nat, (0 : Nat) ≠ 2 ^ k :=
  ⟨rfl, rfl, fun k => Nat.ne_of_lt (Nat.two_pow_pos k)⟩

/-- Claim C3: for a non-negative value and a positive power-of-two
alignment `2^k`, with no overflow in `value + (alignment - 1)`, both calls
succeed, `aligned` is a multiple of the alignment,
`aligned - value = padding`, and `0 <= padding < alignment`; in particular
`padding(10, 8) = 6`, `aligned(10, 8) = 16`, `padding(16, 8) = 0`. -/
theorem claim_C3 {w k value : Nat} (hk : k + 1 < w)
    (hov : value + (2 ^ k - 1) < 2 ^ (w - 1)) :
    (∃ p a, padding w value (2 ^ k) = .ok p ∧ aligned w value (2 ^ k) = .ok a ∧
      a % 2 ^ k = 0 ∧ a = value + p ∧ p < 2 ^ k) ∧
    padding 64 10 8 = .ok 6 ∧ aligned 64 10 8 = .ok 16 ∧
    padding 64 16 8 = .ok 0 := by
  refine ⟨?_, rfl, rfl, rfl⟩
  have hkw : k < w := by omega
  have hKpos : 1 ≤ 2 ^ k := Nat.one_le_two_pow
  have hkW : 2 ^ k < 2 ^ w := (Nat.pow_lt_pow_iff_right (by omega)).mpr hkw
  have hw2 : 2 ^ (w - 1) ≤ 2 ^ w := Nat.pow_le_pow_right (by omega) (by omega)
  have hv : value < 2 ^ (w - 1) := by omega
  have hsge : sgeZero w value = true := by
    unfold sgeZero
    simp [hv]
  have hipot : is_power_of_two w (2 ^ k) = true :=
    (is_power_of_two_iff (Nat.two_pow_pos k) hkW).mpr ⟨k, rfl⟩
  have hw1sub : wsub w (2 ^ k) 1 = 2 ^ k - 1 := wsub_one hKpos hkW
  have hdvd : (2 : Nat) ^ k ∣ 2 ^ w := pow_dvd_pow 2 (le_of_lt hkw)
  have hpad : padding w value (2 ^ k)
      = .ok (Nat.land (wsub w 0 value) (wsub w (2 ^ k) 1)) := by
    unfold padding
    simp [hsge, hipot]
  have hp : Nat.land (wsub w 0 value) (2 ^ k - 1) = (2 ^ w - value) % 2 ^ k := by
    rw [land_eq_and, Nat.and_pow_two_sub_one_eq_mod]
    unfold wsub
    rw [Nat.zero_add]
    exact Nat.mod_mod_of_dvd _ hdvd
  have hal : aligned w value (2 ^ k)
      = .ok (Nat.land ((value + wsub w (2 ^ k) 1) % 2 ^ w) (wsub w 0 (2 ^ k))) := by
    unfold aligned
    simp [hsge, hipot]
  have hmask : wsub w 0 (2 ^ k) = 2 ^ w - 2 ^ k :=
    wsub_zero_left hKpos (le_of_lt hkW)
  set x := value + (2 ^ k - 1) with hxdef
  have hxlt : x < 2 ^ w := by omega
  have ha : Nat.land (x % 2 ^ w) (2 ^ w - 2 ^ k) = x - x % 2 ^ k := by
    rw [Nat.mod_eq_of_lt hxlt, land_eq_and]
    exact and_two_pow_sub_two_pow (le_of_lt hkw) hxlt
  have hsum : x % 2 ^ k + (2 ^ w - value) % 2 ^ k = 2 ^ k - 1 := by
    have hpw : 2 ^ k * 2 ^ (w - k) = 2 ^ w := by
      rw [← pow_add]
      congr 1
      omega
    have hadd : (x + (2 ^ w - value)) % 2 ^ k = 2 ^ k - 1 := by
      have he : x + (2 ^ w - value) = 2 ^ k * 2 ^ (w - k) + (2 ^ k - 1) := by
        omega
      rw [he, Nat.mul_add_mod]
      exact Nat.mod_eq_of_lt (by omega)
    rw [Nat.add_mod] at hadd
    have hx2 : x % 2 ^ k < 2 ^ k := Nat.mod_lt _ (Nat.two_pow_pos k)
    have hp2 : (2 ^ w - value) % 2 ^ k < 2 ^ k := Nat.mod_lt _ (Nat.two_pow_pos k)
    rcases Nat.lt_or_ge (x % 2 ^ k + (2 ^ w - value) % 2 ^ k) (2 ^ k) with hlt | hge
    · rw [Nat.mod_eq_of_lt hlt] at hadd
      exact hadd
    · rw [Nat.mod_eq_sub_mod hge, Nat.mod_eq_of_lt (by omega)] at hadd
      omega
  refine ⟨(2 ^ w - value) % 2 ^ k, x - x % 2 ^ k, ?_, ?_, ?_, ?_, ?_⟩
  · rw [hpad, hw1sub, hp]
  · rw [hal, hw1sub, hmask, ha]
  · have hd := Nat.div_add_mod x (2 ^ k)
    have he : x - x % 2 ^ k = 2 ^ k * (x / 2 ^ k) := by omega
    rw [he]
    exact Nat.mul_mod_right _ _
  · have hx2 : x % 2 ^ k < 2 ^ k := Nat.mod_lt _ (Nat.two_pow_pos k)
    omega
  · exact Nat.mod_lt _ (Nat.two_pow_pos k)

theorem claim_C3_witness :
    (∃ p a, padding 8 10 (2 ^ 3) = .ok p ∧ aligned 8 10 (2 ^ 3) = .ok a ∧
      a % 2 ^ 3 = 0 ∧ a = 10 + p ∧ p < 2 ^ 3) ∧
    padding 64 10 8 = .ok 6 ∧ aligned 64 10 8 = .ok 16 ∧
    padding 64 16 8 = .ok 0 :=
  claim_C3 (by decide) (by decide)

/-- Claim C6: `is_power_of_two` returns `true` on every power of two
representable in the type, `false` on every other strictly positive
value, and `true` on `0` (the documented bit-trick edge case). -/
theorem claim_C6 (w n k : Nat) :
    (n = 2 ^ k → k < w → is_power_of_two w n = true) ∧
    (0 < n → n < 2 ^ (w - 1) → (∀ j, n ≠ 2 ^ j) → is_power_of_two w n = false) ∧
    is_power_of_two w 0 = true := by
  refine ⟨?_, ?_, is_power_of_two_zero w⟩
  · rintro rfl hkw
    exact (is_power_of_two_iff (Nat.two_pow_pos k)
      ((Nat.pow_lt_pow_iff_right (by omega)).mpr hkw)).mpr ⟨k, rfl⟩
  · intro h0 hn hnp
    have hnw : n < 2 ^ w :=
      lt_of_lt_of_le hn (Nat.pow_le_pow_right (by omega) (by omega))
    rcases Bool.eq_false_or_eq_true (is_power_of_two w n) with h | h
    · obtain ⟨j, hj⟩ := (is_power_of_two_iff h0 hnw).mp h
      exact absurd hj (hnp j)
    · exact h

theorem claim_C6_witness :
    is_power_of_two 8 8 = true ∧ is_power_of_two 8 6 = false ∧
    is_power_of_two 8 0 = true :=
  ⟨(claim_C6 8 8 3).1 rfl (by decide),
   (claim_C6 8 6 0).2.1 (by decide) (by decide) (by
    intro j h
    have hj : j < 3 := by
      by_contra hj
      push_neg at hj
      have h8 : (2 : Nat) ^ 3 ≤ 2 ^ j := Nat.pow_le_pow_right (by decide) hj
      omega
    interval_cases j <;> omega),
   (claim_C6 8 0 0).2.2⟩

/-- Claim C10: on a `w`-bit two's-complement type, every strictly negative
value other than the minimum (patterns strictly between `2^(w-1)` and
`2^w`) fails `is_power_of_two`, while the minimum value itself (pattern
`2^(w-1)`, where `n - 1` wraps to the maximum) passes it. -/
theorem claim_C10 (w n : Nat) :
    (2 ^ (w - 1) < n → n < 2 ^ w → is_power_of_two w n = false) ∧
    (1 ≤ w → is_power_of_two w (2 ^ (w - 1)) = true) := by
  constructor
  · intro h1 h2
    have h0 : 0 < n := lt_of_le_of_lt (Nat.zero_le _) h1
    rcases Bool.eq_false_or_eq_true (is_power_of_two w n) with h | h
    swap
    · exact h
    · obtain ⟨j, hj⟩ := (is_power_of_two_iff h0 h2).mp h
      subst hj
      have hj1 : w - 1 < j := (Nat.pow_lt_pow_iff_right (by omega)).mp h1
      have hj2 : j < w := (Nat.pow_lt_pow_iff_right (by omega)).mp h2
      omega
  · intro hw
    have hlt : 2 ^ (w - 1) < 2 ^ w :=
      (Nat.pow_lt_pow_iff_right (by omega)).mpr (by omega)
    exact (is_power_of_two_iff (Nat.two_pow_pos _) hlt).mpr ⟨w - 1, rfl⟩

theorem claim_C10_witness :
    is_power_of_two 8 200 = false ∧ is_power_of_two 8 128 = true :=
  ⟨(claim_C10 8 200).1 (by decide) (by decide), (claim_C10 8 200).2 (by decide)⟩

end dmitigr.math

namespace dmitigr.math

/-! ### Claims about `Interval` -/

/-- Claim C1: `has` implements exactly the four comparison patterns by
interval type — `closed`: `min <= v && v <= max`; `open`:
`min < v && v < max`; `lopen`: `min < v && v <= max`; `ropen`:
`min <= v && v < max` — totally, for every interval value; and the
endpoint examples on `[1,5]`, `(1,5)`, `(1,5]`, `[1,5)` behave as
listed. -/
theorem claim_C1 :
    (∀ (T : Type) [LinearOrder T] (i : Interval T) (v : T),
      (i.type_ = Interval_type.closed →
        (i.has v = true ↔ i.min_ ≤ v ∧ v ≤ i.max_)) ∧
      (i.type_ = Interval_type.«open» →
        (i.has v = true ↔ i.min_ < v ∧ v < i.max_)) ∧
      (i.type_ = Interval_type.lopen →
        (i.has v = true ↔ i.min_ < v ∧ v ≤ i.max_)) ∧
      (i.type_ = Interval_type.ropen →
        (i.has v = true ↔ i.min_ ≤ v ∧ v < i.max_))) ∧
    (Interval.make_closed (1 : Int) 5).map (fun i => i.has 1) = .ok true ∧
    (Interval.make_closed (1 : Int) 5).map (fun i => i.has 5) = .ok true ∧
    (Interval.make_open (1 : Int) 5).map (fun i => i.has 1) = .ok false ∧
    (Interval.make_open (1 : Int) 5).map (fun i => i.has 5) = .ok false ∧
    (Interval.make_open (1 : Int) 5).map (fun i => i.has 3) = .ok true ∧
    (Interval.make_lopen (1 : Int) 5).map (fun i => i.has 1) = .ok false ∧
    (Interval.make_lopen (1 : Int) 5).map (fun i => i.has 5) = .ok true ∧
    (Interval.make_ropen (1 : Int) 5).map (fun i => i.has 1) = .ok true ∧
    (Interval.make_ropen (1 : Int) 5).map (fun i => i.has 5) = .ok false := by
  refine ⟨?_, rfl, rfl, rfl, rfl, rfl, rfl, rfl, rfl, rfl⟩
  intro T _ i v
  obtain ⟨t, mn, mx⟩ := i
  cases t <;> simp [Interval.has]

theorem claim_C1_witness :
    ({ type_ := Interval_type.lopen, min_ := 1, max_ := 5 } : Interval Int).has 1
      = true ↔ (1 : Int) < 1 ∧ (1 : Int) ≤ 5 :=
  (claim_C1.1 Int { type_ := Interval_type.lopen, min_ := 1, max_ := 5 } 1).2.2.1 rfl

/-- Claim C4: the two-argument constructor builds a closed interval and
fails exactly when `min > max`; the typed constructor fails exactly when
`(type == closed && min > max) || (type != closed && min >= max)`; the
four factories delegate to the typed constructor; `Interval(5, 1)` and
`Interval::make_open(3, 3)` fail with invalid-argument. -/
theorem claim_C4 :
    (∀ (T : Type) [LinearOrder T] (mn mx : T),
      ((Interval.mk2 mn mx).isOk = false ↔ mx < mn) ∧
      (∀ t, (Interval.mkTyped t mn mx).isOk = false ↔
        (t = Interval_type.closed ∧ mx < mn) ∨
        (t ≠ Interval_type.closed ∧ mx ≤ mn)) ∧
      Interval.make_closed mn mx = Interval.mkTyped Interval_type.closed mn mx ∧
      Interval.make_open mn mx = Interval.mkTyped Interval_type.«open» mn mx ∧
      Interval.make_lopen mn mx = Interval.mkTyped Interval_type.lopen mn mx ∧
      Interval.make_ropen mn mx = Interval.mkTyped Interval_type.ropen mn mx) ∧
    Interval.mk2 (5 : Int) 1 = .error "interval is invalid (min > max)" ∧
    Interval.make_open (3 : Int) 3
      = .error "interval is invalid (min > max or min >= max)" := by
  refine ⟨?_, rfl, rfl⟩
  intro T _ mn mx
  refine ⟨?_, ?_, rfl, rfl, rfl, rfl⟩
  · rcases le_or_lt mn mx with h | h
    · simp [Interval.mk2, h, h.not_lt, Except.isOk, Except.toBool]
    · simp [Interval.mk2, h, h.le, not_le.mpr h, Except.isOk, Except.toBool]
  · intro t
    rcases lt_trichotomy mn mx with h | h | h
    · cases t <;>
        simp [Interval.mkTyped, Except.isOk, Except.toBool, h, h.le, h.asymm,
          not_le.mpr h]
    · subst h
      cases t <;>
        simp [Interval.mkTyped, Except.isOk, Except.toBool, le_refl, lt_irrefl]
    · cases t <;>
        simp [Interval.mkTyped, Except.isOk, Except.toBool, h, h.le, h.asymm,
          not_le.mpr h]

theorem claim_C4_witness :
    (Interval.mk2 (5 : Int) 1).isOk = false ↔ (1 : Int) < 5 :=
  (claim_C4.1 Int 5 1).1

/-- Claim C5: `release()` on a successfully constructed interval returns
the pair `(min, max)` and leaves the instance equal to a freshly
default-constructed interval (closed, with default-constructed
endpoints); on the closed interval `[2,9]` it returns `(2,9)`. -/
theorem claim_C5 :
    (∀ (T : Type) [LinearOrder T] [Inhabited T] (t : Interval_type) (mn mx : T)
      (i : Interval T), Interval.mkTyped t mn mx = .ok i →
        i.release = ((mn, mx), Interval.dfault)) ∧
    (∀ (T : Type) [LinearOrder T] [Inhabited T] (mn mx : T) (i : Interval T),
      Interval.mk2 mn mx = .ok i → i.release = ((mn, mx), Interval.dfault)) ∧
    (∀ (T : Type) [Inhabited T] (i : Interval T),
      (i.release).1 = (i.min, i.max) ∧
      (i.release).2.type = Interval_type.closed ∧
      (i.release).2.min = (default : T) ∧ (i.release).2.max = (default : T)) ∧
    (Interval.make_closed (2 : Int) 9).map (fun i => i.release)
      = .ok ((2, 9), { type_ := Interval_type.closed, min_ := 0, max_ := 0 }) := by
  refine ⟨?_, ?_, fun T _ i => ⟨rfl, rfl, rfl, rfl⟩, rfl⟩
  · intro T _ _ t mn mx i h
    simp only [Interval.mkTyped] at h
    split_ifs at h with hr
    injection h with h2
    subst h2
    rfl
  · intro T _ _ mn mx i h
    simp only [Interval.mk2] at h
    split_ifs at h with hr
    injection h with h2
    subst h2
    rfl

theorem claim_C5_witness :
    ({ type_ := Interval_type.closed, min_ := 2, max_ := 9 } : Interval Int).release
      = ((2, 9), Interval.dfault) :=
  claim_C5.1 Int Interval_type.closed 2 9 _ rfl

end dmitigr.math

namespace dmitigr.math

/-! ### Helper lemmas about the statistics accumulators -/

theorem foldl_div_sum (c : ℚ) :
    ∀ (l : List ℚ) (acc : ℚ),
      l.foldl (fun r x => r + x / c) acc = acc + l.sum / c := by
  intro l
  induction l with
  | nil =>
    intro acc
    simp
  | cons x xs ih =>
    intro acc
    rw [List.foldl_cons, ih, List.sum_cons, add_div]
    ring

theorem foldl_var_sum (m c : ℚ) :
    ∀ (l : List ℚ) (acc : ℚ),
      l.foldl (fun r x => r + ((x - m) / c) * (x - m)) acc
        = acc + (l.map (fun x => (x - m) ^ 2)).sum / c := by
  intro l
  induction l with
  | nil =>
    intro acc
    simp
  | cons x xs ih =>
    intro acc
    rw [List.foldl_cons, ih, List.map_cons, List.sum_cons, add_div]
    ring

/-- `avg` computes the arithmetic mean (sum divided by size). -/
theorem avg_eq_sum_div (data : List ℚ) : avg data = data.sum / data.length := by
  unfold avg
  rw [foldl_div_sum, zero_add]

/-- `variance` computes the sum of squared deviations divided by
`size_t`-denominator `data.size() - !general`. -/
theorem variance_eq_sum_div (data : List ℚ) (m : ℚ) (g : Bool) :
    variance data m g = (data.map (fun x => (x - m) ^ 2)).sum
      / ((sizeSub data.length (if g then 0 else 1) : Nat) : ℚ) := by
  simp only [variance]
  rw [foldl_var_sum, zero_add]

theorem sizeSub_general {len : Nat} (h : len < 2 ^ 64) : sizeSub len 0 = len := by
  unfold sizeSub
  rw [Nat.sub_zero, Nat.add_comm, Nat.add_mod_left]
  exact Nat.mod_eq_of_lt h

theorem sizeSub_sample {len : Nat} (h1 : 1 ≤ len) (h2 : len ≤ 2 ^ 64) :
    sizeSub len 1 = len - 1 := by
  unfold sizeSub
  have hp : 1 ≤ 2 ^ 64 := Nat.one_le_two_pow
  have he : len + (2 ^ 64 - 1) = 2 ^ 64 + (len - 1) := by omega
  rw [he, Nat.add_mod_left]
  exact Nat.mod_eq_of_lt (by omega)

/-! ### Claims about the statistics functions -/

/-- Claim C7: `avg` is the arithmetic mean; `variance` with
`general = true` divides by `N` and with `general = false` by `N - 1`;
the overload delegates through `avg`; and on `{2,4,4,4,5,5,7,9}` the
mean is `5`, the population variance `4` and the sample variance `32/7`
(exactly, in the exact-arithmetic model of `double`). -/
theorem claim_C7 :
    (∀ data : List ℚ, data ≠ [] → avg data = data.sum / data.length) ∧
    (∀ (data : List ℚ) (m : ℚ), data ≠ [] → data.length < 2 ^ 64 →
      variance data m true
        = (data.map (fun x => (x - m) ^ 2)).sum / data.length) ∧
    (∀ (data : List ℚ) (m : ℚ), 1 ≤ data.length → data.length < 2 ^ 64 →
      variance data m false
        = (data.map (fun x => (x - m) ^ 2)).sum / ((data.length : ℚ) - 1)) ∧
    (∀ (data : List ℚ) (g : Bool), variance2 data g = variance data (avg data) g) ∧
    avg [2, 4, 4, 4, 5, 5, 7, 9] = 5 ∧
    variance [2, 4, 4, 4, 5, 5, 7, 9] 5 true = 4 ∧
    variance [2, 4, 4, 4, 5, 5, 7, 9] 5 false = 32 / 7 ∧
    variance2 [2, 4, 4, 4, 5, 5, 7, 9] false = 32 / 7 := by
  refine ⟨fun data _ => avg_eq_sum_div data, ?_, ?_, fun data g => rfl, ?_, ?_, ?_, ?_⟩
  · intro data m _ hlen
    have h1 := variance_eq_sum_div data m true
    have hif : (if (true : Bool) = true then (0 : Nat) else 1) = 0 := rfl
    rw [hif, sizeSub_general hlen] at h1
    exact h1
  · intro data m hlen1 hlen
    have h1 := variance_eq_sum_div data m false
    have hif : (if (false : Bool) = true then (0 : Nat) else 1) = 1 := rfl
    rw [hif, sizeSub_sample hlen1 (le_of_lt hlen), Nat.cast_sub hlen1, Nat.cast_one] at h1
    exact h1
  · norm_num [avg, List.foldl]
  · norm_num [variance, sizeSub, List.foldl]
  · norm_num [variance, sizeSub, List.foldl]
  · norm_num [variance2, variance, avg, sizeSub, List.foldl]

theorem claim_C7_witness :
    avg [2, 4, 4, 4, 5, 5, 7, 9]
      = [(2 : ℚ), 4, 4, 4, 5, 5, 7, 9].sum / ([(2 : ℚ), 4, 4, 4, 5, 5, 7, 9].length : ℚ) :=
  claim_C7.1 [2, 4, 4, 4, 5, 5, 7, 9] (by simp)

/-- Claim C8: under the stated preconditions (non-empty data; at least two
elements for sample variance) the variance is non-negative, so the
`DMITIGR_ASSERT(result >= 0)` postcondition holds on valid inputs. -/
theorem claim_C8 (data : List ℚ) (m : ℚ) (general : Bool) (_h1 : data ≠ [])
    (_h2 : general = false → 2 ≤ data.length) :
    0 ≤ variance data m general := by
  rw [variance_eq_sum_div]
  apply div_nonneg
  · apply List.sum_nonneg
    intro x hx
    simp only [List.mem_map] at hx
    obtain ⟨y, _, rfl⟩ := hx
    exact sq_nonneg _
  · exact Nat.cast_nonneg _

theorem claim_C8_witness : 0 ≤ variance [2, 4, 4, 4, 5, 5, 7, 9] 5 false :=
  claim_C8 [2, 4, 4, 4, 5, 5, 7, 9] 5 false (by simp) (fun _ => by
    norm_num)

/-- Claim C9, counterexample to the claim as stated: on an empty
collection the accumulation loops never execute, so `avg` and `variance`
return the finite value `0` — not a NaN/infinity-class result.  (This is
exact IEEE behaviour too: `result{}` is `0.0` and no division is ever
performed on the empty range.) -/
theorem claim_C9_counterexample :
    avg ([] : List ℚ) = 0 ∧ variance ([] : List ℚ) 0 true = 0 ∧
    variance ([] : List ℚ) 0 false = 0 ∧ variance2 ([] : List ℚ) true = 0 :=
  ⟨rfl, rfl, rfl, rfl⟩

/-- Claim C9 (amended): on an empty collection `avg` and `variance`
return `0` (the per-element divisions never execute), with no explicit
error; sample variance on a single element does divide by a zero
denominator (`den = size - 1 = 0`), the division-by-zero-class case the
claim describes; and with `general = false` on empty data the `size_t`
expression `data.size() - !general` wraps to `2^64 - 1`. -/
theorem claim_C9 :
    (∀ g : Bool, avg ([] : List ℚ) = 0 ∧ (∀ m : ℚ, variance ([] : List ℚ) m g = 0) ∧
      variance2 ([] : List ℚ) g = 0) ∧
    sizeSub 1 1 = 0 ∧
    (∀ x m : ℚ, variance [x] m false = ((x - m) / 0) * (x - m)) ∧
    sizeSub 0 1 = 2 ^ 64 - 1 := by
  refine ⟨fun g => ⟨rfl, fun m => rfl, rfl⟩, by norm_num [sizeSub], ?_, by norm_num [sizeSub]⟩
  intro x m
  have h0 : ((sizeSub 1 1 : Nat) : ℚ) = 0 := by
    norm_num [sizeSub]
  simp only [variance, List.length_cons, List.length_nil, List.foldl_cons, List.foldl_nil]
  have h1 : sizeSub (0 + 1) (if (false : Bool) = true then 0 else 1) = sizeSub 1 1 := rfl
  rw [h1, h0, zero_add]

theorem claim_C9_witness :
    variance ([] : List ℚ) 1 true = 0 ∧
    variance [(3 : ℚ)] 0 false = ((3 - 0) / 0) * (3 - 0) :=
  ⟨(claim_C9.1 true).2.1 1, claim_C9.2.2.1 3 0⟩

end dmitigr.math

